import Mathlib

/-
Verification of the CRM GraphQL backend (crm/schema.py, crm/filters.py).

The mutation and resolver logic is a shallow embedding of `crm/schema.py`.
The entity shapes (Customer, Product, Order) live in `crm/models.py`, which
is referenced from the schema but not part of the sources here; they are
modelled from the specification's data-model table.  The third-party email
validator and the regex engine are external collaborators: each appears as
a boolean-valued function parameter (`ve` for email validity, `vp` for the
phone pattern), and the database's possible bulk-insert failure as a
boolean parameter `dbOk`.
-/

set_option autoImplicit false

namespace CRM

/-- Modelled from the spec: `crm/models.py` is absent from the sources; spec §3
gives Customer attributes id, name (string), email (string), phone (optional
string).  The `created_at` timestamp is omitted: no claim mentions it. -/
structure Customer where
  id : Nat
  name : String
  email : String
  phone : Option String
  deriving Repr, DecidableEq

/-- Modelled from the spec: spec §3 gives Product attributes id, name (string),
price (decimal), stock (integer, default 0).  Decimals are embedded as `ℚ`. -/
structure Product where
  id : Nat
  name : String
  price : ℚ
  stock : ℤ
  deriving Repr, DecidableEq

/-- Modelled from the spec: spec §3 gives Order attributes id, an owning
reference to one Customer, and a many-to-many set of Product references.
The `order_date` timestamp is omitted: no claim mentions it. -/
structure Order where
  id : Nat
  customerId : Nat
  productIds : List Nat
  deriving Repr, DecidableEq

/-- The entity store (spec §2): relational storage for the three entities.
Rows are kept in insertion order; the `next…Id` counters model the
auto-assigned primary keys. -/
structure Store where
  customers : List Customer
  products : List Product
  orders : List Order
  nextCustomerId : Nat
  nextProductId : Nat
  nextOrderId : Nat
  deriving Repr, DecidableEq

/-- The empty entity store; primary keys start at 1 as in the database. -/
def emptyStore : Store := ⟨[], [], [], 1, 1, 1⟩

/-- The distinct `raise Exception(...)` sites of the mutation handlers in
`crm/schema.py`, one constructor per site, carrying the data interpolated
into the message. -/
inductive MutError where
  | invalidEmail (value : String)
  | invalidPhone (value : String)
  | negativePrice
  | negativeStock
  | customerNotFound (id : Nat)
  | productNotFound (id : Nat)
  | emptySelection
  deriving Repr, DecidableEq

/-- Spec §7 taxonomy: which raise sites are validation errors
(email/phone/numeric). -/
def MutError.isValidation : MutError → Bool
  | .invalidEmail _ => true
  | .invalidPhone _ => true
  | .negativePrice => true
  | .negativeStock => true
  | _ => false

/-- Spec §7 taxonomy: which raise sites are not-found errors
(missing customer/product reference). -/
def MutError.isNotFound : MutError → Bool
  | .customerNotFound _ => true
  | .productNotFound _ => true
  | _ => false

/-- Python truthiness of an optional string (`if phone:` in the source):
false for `None` and for the empty string. -/
def truthy : Option String → Bool
  | none => false
  | some s => s ≠ ""

/-! ## Query resolvers (`Query` in `crm/schema.py`)

`Customer.objects.get(pk=id)` wrapped in `try/except DoesNotExist: return None`
is embedded as `List.find?` on the store. -/

/-- `Query.resolve_customer_by_id`. -/
def resolve_customer_by_id (s : Store) (id : Nat) : Option Customer :=
  s.customers.find? (fun c => c.id = id)

/-- `Query.resolve_product_by_id`. -/
def resolve_product_by_id (s : Store) (id : Nat) : Option Product :=
  s.products.find? (fun p => p.id = id)

/-- `Query.resolve_order_by_id`. -/
def resolve_order_by_id (s : Store) (id : Nat) : Option Order :=
  s.orders.find? (fun o => o.id = id)

/-- `OrderType.resolve_total_amount`: `sum(product.price for product in
self.products.all())` — the associated product rows are looked up in the
current store and their current prices summed; nothing is read from the
order itself except the association. -/
def resolve_total_amount (s : Store) (o : Order) : ℚ :=
  (o.productIds.filterMap (fun pid =>
    (s.products.find? (fun p => p.id = pid)).map Product.price)).sum

/-- Modelled from the spec: an external price change ("historical orders'
totals change if product prices change later", spec §4.4).  No exposed
mutation updates a product, so the change is a direct store edit. -/
def setPrice (s : Store) (pid : Nat) (newPrice : ℚ) : Store :=
  { s with products :=
      s.products.map (fun p => if p.id = pid then { p with price := newPrice } else p) }

/-! ## Mutation handlers

Each handler returns the store after the call together with the outcome.
A `raise` in the source is an `Except.error`; every raise site in
`crm/schema.py` executes before any write of that handler, so the store
component at an error is the handler's input store. -/

/-- `CreateCustomer.mutate`: validate the email with the external validator,
then (when the phone is truthy) the phone against the regex, then save. -/
def create_customer (ve vp : String → Bool) (s : Store)
    (name email : String) (phone : Option String) :
    Store × Except MutError Customer :=
  if ve email = false then
    (s, .error (.invalidEmail email))
  else if truthy phone = true ∧ vp (phone.getD "") = false then
    (s, .error (.invalidPhone (phone.getD "")))
  else
    let c : Customer := ⟨s.nextCustomerId, name, email, phone⟩
    ({ s with customers := s.customers ++ [c],
              nextCustomerId := s.nextCustomerId + 1 },
     .ok c)

/-- `CustomerInput` (graphene input object): name, email, optional phone. -/
structure CustomerInput where
  name : String
  email : String
  phone : Option String
  deriving Repr, DecidableEq

/-- `FieldError` / `ErrorDetail`: field, message, offending value. -/
structure FieldError where
  field : String
  message : String
  value : String
  deriving Repr, DecidableEq

/-- The error entries one record of `BulkCreateCustomers.mutate` contributes:
an email entry when the external validator rejects the email, then a phone
entry when the phone is truthy and fails the regex (both can occur). -/
def record_errors (ve vp : String → Bool) (cd : CustomerInput) : List FieldError :=
  (if ve cd.email = false then
    [⟨"email", "Invalid email for customer " ++ cd.name, cd.email⟩]
  else []) ++
  (if truthy cd.phone = true ∧ vp (cd.phone.getD "") = false then
    [⟨"phone", "Invalid phone number for customer " ++ cd.name, cd.phone.getD ""⟩]
  else [])

/-- One iteration of the loop of `BulkCreateCustomers.mutate`: the record
either appends its error entries to the error list or is appended to the
list of objects to insert. -/
def bulkStep (ve vp : String → Bool) (acc : List CustomerInput × List FieldError)
    (cd : CustomerInput) : List CustomerInput × List FieldError :=
  let errs := record_errors ve vp cd
  if errs.isEmpty then (acc.1 ++ [cd], acc.2) else (acc.1, acc.2 ++ errs)

/-- The accumulation loop of `BulkCreateCustomers.mutate` over all records. -/
def bulkValidate (ve vp : String → Bool) (inputs : List CustomerInput) :
    List CustomerInput × List FieldError :=
  inputs.foldl (bulkStep ve vp) ([], [])

/-- `Customer.objects.bulk_create(objs)`: every object is inserted, receiving
the next primary key. -/
def insertCustomers (s : Store) (objs : List CustomerInput) : Store :=
  objs.foldl (fun st cd =>
    { st with customers := st.customers ++ [⟨st.nextCustomerId, cd.name, cd.email, cd.phone⟩],
              nextCustomerId := st.nextCustomerId + 1 }) s

/-- The output of `BulkCreateCustomers`: ok flag, created count, error list. -/
structure BulkResult where
  ok : Bool
  created_count : Nat
  errors : List FieldError
  deriving Repr, DecidableEq

/-- The database-level error entry appended when `bulk_create` raises. -/
def dbErrorEntry : FieldError :=
  ⟨"database", "Failed to bulk create customers due to a databse error", "N/A"⟩

/-- `BulkCreateCustomers.mutate`: validate every record, insert the valid
ones together; `dbOk = false` is the branch where `bulk_create` raises, in
which case a single database entry is appended, ok is false and the count
zero; otherwise ok is `errors_list` being empty and the count is the number
of inserted objects. -/
def bulk_create_customers (ve vp : String → Bool) (dbOk : Bool) (s : Store)
    (inputs : List CustomerInput) : Store × BulkResult :=
  let va := bulkValidate ve vp inputs
  if dbOk then
    (insertCustomers s va.1, ⟨va.2.isEmpty, va.1.length, va.2⟩)
  else
    (s, ⟨false, 0, va.2 ++ [dbErrorEntry]⟩)

/-- `CreateProduct.mutate`: reject a negative price, then a negative stock,
otherwise save the product. -/
def create_product (s : Store) (name : String) (price : ℚ) (stock : ℤ) :
    Store × Except MutError Product :=
  if price < 0 then
    (s, .error .negativePrice)
  else if stock < 0 then
    (s, .error .negativeStock)
  else
    let p : Product := ⟨s.nextProductId, name, price, stock⟩
    ({ s with products := s.products ++ [p],
              nextProductId := s.nextProductId + 1 },
     .ok p)

/-- `CreateProduct` with the argument default `stock = 0`. -/
def create_product_default (s : Store) (name : String) (price : ℚ) :
    Store × Except MutError Product :=
  create_product s name price 0

/-- The product-resolution loop of `CreateOrder.mutate`: look every id up in
order, raising at the first missing one. -/
def resolveProducts (s : Store) : List Nat → Except MutError (List Product)
  | [] => .ok []
  | pid :: rest =>
    match s.products.find? (fun p => p.id = pid) with
    | some p => (resolveProducts s rest).map (fun ps => p :: ps)
    | none => .error (.productNotFound pid)

/-- `CreateOrder.mutate`: resolve the customer, resolve every product id,
reject an empty resolved list, then save the order and associate the
resolved products. -/
def create_order (s : Store) (customerId : Nat) (productIds : List Nat) :
    Store × Except MutError Order :=
  match s.customers.find? (fun c => c.id = customerId) with
  | none => (s, .error (.customerNotFound customerId))
  | some _ =>
    match resolveProducts s productIds with
    | .error e => (s, .error e)
    | .ok prods =>
      if prods.isEmpty then
        (s, .error .emptySelection)
      else
        let o : Order := ⟨s.nextOrderId, customerId, prods.map Product.id⟩
        ({ s with orders := s.orders ++ [o],
                  nextOrderId := s.nextOrderId + 1 },
         .ok o)

/-- The customers `bulk_create` inserts, with the primary keys they receive. -/
def withIds (start : Nat) : List CustomerInput → List Customer
  | [] => []
  | cd :: rest => ⟨start, cd.name, cd.email, cd.phone⟩ :: withIds (start + 1) rest

/-- The current price the store associates with a product id (0 when the id is
absent, a case the claims rule out by hypothesis). -/
def priceOf (s : Store) (pid : Nat) : ℚ :=
  ((s.products.find? (fun p => p.id = pid)).map Product.price).getD 0

/-- Every previously existing row, with all its fields, is still present in
its table, in its position: each table of the new store extends the old one
on the right. -/
def preservesExisting (s s2 : Store) : Prop :=
  (∃ cs, s2.customers = s.customers ++ cs) ∧
  (∃ ps, s2.products = s.products ++ ps) ∧
  (∃ os, s2.orders = s.orders ++ os)

/-- A store with one customer and two products, used to instantiate the
order-creation theorems on concrete inputs. -/
def demoStore : Store :=
  { customers := [⟨1, "Alice", "alice@example.com", some "123-456-7890"⟩],
    products := [⟨1, "Laptop", 1200, 50⟩, ⟨2, "Mouse", 51/2, 200⟩],
    orders := [],
    nextCustomerId := 2, nextProductId := 3, nextOrderId := 1 }

/-! ## Helper lemmas: bulk creation -/

lemma withIds_length (objs : List CustomerInput) (start : Nat) :
    (withIds start objs).length = objs.length := by
  induction objs generalizing start <;> simp [withIds, *]

lemma withIds_data (objs : List CustomerInput) (start : Nat) :
    (withIds start objs).map (fun c => (c.name, c.email, c.phone)) =
      objs.map (fun cd => (cd.name, cd.email, cd.phone)) := by
  induction objs generalizing start <;> simp [withIds, *]

lemma bulkStep_pos (ve vp : String → Bool) (acc : List CustomerInput × List FieldError)
    (cd : CustomerInput) (h : (record_errors ve vp cd).isEmpty = true) :
    bulkStep ve vp acc cd = (acc.1 ++ [cd], acc.2) := by
  simp [bulkStep, h]

lemma bulkStep_neg (ve vp : String → Bool) (acc : List CustomerInput × List FieldError)
    (cd : CustomerInput) (h : (record_errors ve vp cd).isEmpty = false) :
    bulkStep ve vp acc cd = (acc.1, acc.2 ++ record_errors ve vp cd) := by
  simp [bulkStep, h]

lemma bulkValidate_go (ve vp : String → Bool) (inputs : List CustomerInput)
    (objs : List CustomerInput) (errs : List FieldError) :
    inputs.foldl (bulkStep ve vp) (objs, errs) =
    (objs ++ inputs.filter (fun cd => (record_errors ve vp cd).isEmpty),
     errs ++ (inputs.map (record_errors ve vp)).flatten) := by
  induction inputs generalizing objs errs with
  | nil => simp
  | cons cd rest ih =>
    rw [List.foldl_cons]
    by_cases h : (record_errors ve vp cd).isEmpty
    · have he : record_errors ve vp cd = [] := by simpa using h
      rw [bulkStep_pos ve vp _ cd h, ih]
      simp [List.filter_cons, h, he, List.append_assoc]
    · have hf : (record_errors ve vp cd).isEmpty = false := by simpa using h
      rw [bulkStep_neg ve vp _ cd hf, ih]
      simp [List.filter_cons, hf, List.append_assoc]

lemma bulkValidate_eq (ve vp : String → Bool) (inputs : List CustomerInput) :
    bulkValidate ve vp inputs =
      (inputs.filter (fun cd => (record_errors ve vp cd).isEmpty),
       (inputs.map (record_errors ve vp)).flatten) := by
  unfold bulkValidate
  rw [bulkValidate_go]
  simp

lemma insertCustomers_eq (objs : List CustomerInput) (s : Store) :
    insertCustomers s objs =
      { s with customers := s.customers ++ withIds s.nextCustomerId objs,
               nextCustomerId := s.nextCustomerId + objs.length } := by
  induction objs generalizing s with
  | nil => simp [insertCustomers, withIds]
  | cons cd rest ih =>
    have h1 : insertCustomers s (cd :: rest) =
        insertCustomers
          { s with customers := s.customers ++ [⟨s.nextCustomerId, cd.name, cd.email, cd.phone⟩],
                   nextCustomerId := s.nextCustomerId + 1 } rest := rfl
    rw [h1, ih]
    cases s
    simp [withIds, List.append_assoc]
    omega

lemma record_errors_length_le (ve vp : String → Bool) (cd : CustomerInput) :
    (record_errors ve vp cd).length ≤ 2 := by
  unfold record_errors
  split <;> split <;> simp

lemma record_errors_length_pos (ve vp : String → Bool) (cd : CustomerInput)
    (h : (record_errors ve vp cd).isEmpty = false) :
    1 ≤ (record_errors ve vp cd).length := by
  unfold record_errors at h ⊢
  split at h <;> split at h <;> simp_all

lemma flatten_errors_bounds (ve vp : String → Bool) (inputs : List CustomerInput) :
    (inputs.filter (fun cd => !(record_errors ve vp cd).isEmpty)).length ≤
      ((inputs.map (record_errors ve vp)).flatten).length ∧
    ((inputs.map (record_errors ve vp)).flatten).length ≤
      2 * (inputs.filter (fun cd => !(record_errors ve vp cd).isEmpty)).length := by
  induction inputs with
  | nil => simp
  | cons cd rest ih =>
    obtain ⟨ih1, ih2⟩ := ih
    by_cases h : (record_errors ve vp cd).isEmpty
    · have he : record_errors ve vp cd = [] := by simpa using h
      simp only [List.map_cons, List.flatten_cons, he, List.nil_append, List.filter_cons, h,
        Bool.not_true, if_neg, Bool.false_eq_true, not_false_eq_true]
      exact ⟨ih1, ih2⟩
    · have hf : (record_errors ve vp cd).isEmpty = false := by simpa using h
      have h1 : 1 ≤ (record_errors ve vp cd).length :=
        record_errors_length_pos ve vp cd hf
      have h2 := record_errors_length_le ve vp cd
      simp only [List.map_cons, List.flatten_cons, List.filter_cons, hf, Bool.not_false,
        if_pos, List.length_append, List.length_cons]
      constructor
      · omega
      · omega

lemma record_errors_field_mem (ve vp : String → Bool) (cd : CustomerInput)
    (e : FieldError) (he : e ∈ record_errors ve vp cd) :
    e.field = "email" ∨ e.field = "phone" := by
  unfold record_errors at he
  rw [List.mem_append] at he
  rcases he with h | h <;> split at h <;> simp_all

lemma bulkValidate_no_db (ve vp : String → Bool) (inputs : List CustomerInput)
    (e : FieldError) (he : e ∈ (bulkValidate ve vp inputs).2) :
    ¬(e.field = "database") := by
  rw [bulkValidate_eq] at he
  simp only [List.mem_flatten, List.mem_map] at he
  obtain ⟨l, ⟨cd, _, hl⟩, hmem⟩ := he
  subst hl
  rcases record_errors_field_mem ve vp cd e hmem with h | h <;> simp [h]

lemma bulk_create_ok_eq (ve vp : String → Bool) (s : Store) (inputs : List CustomerInput) :
    bulk_create_customers ve vp true s inputs =
      ({ s with
          customers := s.customers ++
              withIds s.nextCustomerId (inputs.filter (fun cd => (record_errors ve vp cd).isEmpty)),
          nextCustomerId := s.nextCustomerId +
              (inputs.filter (fun cd => (record_errors ve vp cd).isEmpty)).length },
       ⟨((inputs.map (record_errors ve vp)).flatten).isEmpty,
        (inputs.filter (fun cd => (record_errors ve vp cd).isEmpty)).length,
        (inputs.map (record_errors ve vp)).flatten⟩) := by
  simp [bulk_create_customers, bulkValidate_eq, insertCustomers_eq]

/-! ## Claims about bulk creation -/

/-- C9: `bulk_create_customers` called with an empty customers list succeeds
and returns ok = true, created_count = 0 and an empty error list, leaving the
store unchanged (the insert of an empty batch succeeds). -/
theorem bulk_create_empty_input (ve vp : String → Bool) (s : Store) :
    bulk_create_customers ve vp true s [] = (s, ⟨true, 0, []⟩) := rfl

/-- C6: when the insert step fails (`dbOk = false`), the result has ok = false,
created_count = 0 and exactly one database-level error entry appended after the
per-record entries, the store is unchanged, and the result shape is always
ok/created_count/errors (the `BulkResult` type). -/
theorem bulk_create_db_failure (ve vp : String → Bool) (s : Store)
    (inputs : List CustomerInput) :
    (bulk_create_customers ve vp false s inputs).1 = s ∧
    (bulk_create_customers ve vp false s inputs).2.ok = false ∧
    (bulk_create_customers ve vp false s inputs).2.created_count = 0 ∧
    (bulk_create_customers ve vp false s inputs).2.errors =
      (bulkValidate ve vp inputs).2 ++ [dbErrorEntry] ∧
    ((bulk_create_customers ve vp false s inputs).2.errors.filter
      (fun e => e.field = "database")).length = 1 := by
  have h4 : (bulk_create_customers ve vp false s inputs).2.errors =
      (bulkValidate ve vp inputs).2 ++ [dbErrorEntry] := rfl
  refine ⟨rfl, rfl, rfl, h4, ?_⟩
  rw [h4, List.filter_append]
  have hnil : (bulkValidate ve vp inputs).2.filter (fun e => e.field = "database") = [] := by
    rw [List.filter_eq_nil_iff]
    intro e he
    simpa using bulkValidate_no_db ve vp inputs e he
  rw [hnil]
  simp [dbErrorEntry]

/-- C1 (amended): for a batch with N records passing both validations and M
failing at least one, the mutation inserts exactly the N valid records (in
order, excluding the invalid ones), returns created_count = N, and returns one
error entry per failed validation — between M and 2·M entries, since a record
can fail both the email and the phone check. -/
theorem bulk_create_mixed_batch (ve vp : String → Bool) (s : Store)
    (inputs : List CustomerInput) :
    (bulk_create_customers ve vp true s inputs).2.created_count =
      (inputs.filter (fun cd => (record_errors ve vp cd).isEmpty)).length ∧
    (bulk_create_customers ve vp true s inputs).1.customers =
      s.customers ++
        withIds s.nextCustomerId (inputs.filter (fun cd => (record_errors ve vp cd).isEmpty)) ∧
    (withIds s.nextCustomerId (inputs.filter (fun cd => (record_errors ve vp cd).isEmpty))).map
        (fun c => (c.name, c.email, c.phone)) =
      (inputs.filter (fun cd => (record_errors ve vp cd).isEmpty)).map
        (fun cd => (cd.name, cd.email, cd.phone)) ∧
    (bulk_create_customers ve vp true s inputs).2.errors =
      (inputs.map (record_errors ve vp)).flatten ∧
    (inputs.filter (fun cd => !(record_errors ve vp cd).isEmpty)).length ≤
      (bulk_create_customers ve vp true s inputs).2.errors.length ∧
    (bulk_create_customers ve vp true s inputs).2.errors.length ≤
      2 * (inputs.filter (fun cd => !(record_errors ve vp cd).isEmpty)).length := by
  rw [bulk_create_ok_eq]
  exact ⟨rfl, rfl, withIds_data _ _, rfl,
    (flatten_errors_bounds ve vp inputs).1, (flatten_errors_bounds ve vp inputs).2⟩

/-- C1 fails as stated: a single record whose email fails validation and whose
phone is truthy and fails the pattern is M = 1 invalid record, yet the error
list has 2 entries, not exactly M = 1. -/
theorem bulk_create_error_count_counterexample :
    ([CustomerInput.mk "a" "x" (some "y")].filter
      (fun cd => !(record_errors (fun _ => false) (fun _ => false) cd).isEmpty)).length = 1 ∧
    (bulk_create_customers (fun _ => false) (fun _ => false) true emptyStore
      [CustomerInput.mk "a" "x" (some "y")]).2.created_count = 0 ∧
    (bulk_create_customers (fun _ => false) (fun _ => false) true emptyStore
      [CustomerInput.mk "a" "x" (some "y")]).2.errors.length = 2 := by
  refine ⟨?_, ?_, ?_⟩ <;> rfl

/-! ## Claims about the single-create mutations -/

/-- C5: `create_customer` fails with a validation error and leaves the store
unchanged whenever the external validator rejects the email, and likewise
whenever the phone is present, non-empty and fails the phone pattern while the
email passes. -/
theorem create_customer_validation_failure (ve vp : String → Bool) (s : Store)
    (name email : String) (phone : Option String) :
    (ve email = false →
      create_customer ve vp s name email phone = (s, .error (.invalidEmail email)) ∧
      (MutError.invalidEmail email).isValidation = true) ∧
    (∀ p, ve email = true → phone = some p → p ≠ "" → vp p = false →
      create_customer ve vp s name email phone = (s, .error (.invalidPhone p)) ∧
      (MutError.invalidPhone p).isValidation = true) := by
  constructor
  · intro h
    exact ⟨by simp [create_customer, h], rfl⟩
  · intro p hve hp hne hvp
    subst hp
    refine ⟨?_, rfl⟩
    simp [create_customer, hve, truthy, hne, hvp]

/-- Witness for C5 at concrete inputs: a rejected email and a rejected
non-empty phone. -/
theorem create_customer_validation_failure_witness :
    create_customer (fun _ => false) (fun _ => false) emptyStore "n" "bad" none =
      (emptyStore, .error (.invalidEmail "bad")) ∧
    create_customer (fun _ => true) (fun _ => false) emptyStore "n" "a@b.c" (some "xyz") =
      (emptyStore, .error (.invalidPhone "xyz")) := by
  constructor
  · exact ((create_customer_validation_failure (fun _ => false) (fun _ => false)
      emptyStore "n" "bad" none).1 rfl).1
  · exact ((create_customer_validation_failure (fun _ => true) (fun _ => false)
      emptyStore "n" "a@b.c" (some "xyz")).2 "xyz" rfl rfl (by decide) rfl).1

/-- C4: `create_product` rejects exactly the inputs with a negative price or a
negative stock (price first), with a validation error and an unchanged store;
otherwise it persists and returns the new product; `stock` defaults to 0. -/
theorem create_product_spec (s : Store) (name : String) (price : ℚ) (stock : ℤ) :
    (price < 0 →
      create_product s name price stock = (s, .error .negativePrice) ∧
      MutError.negativePrice.isValidation = true) ∧
    (0 ≤ price → stock < 0 →
      create_product s name price stock = (s, .error .negativeStock) ∧
      MutError.negativeStock.isValidation = true) ∧
    (0 ≤ price → 0 ≤ stock →
      create_product s name price stock =
        ({ s with products := s.products ++ [⟨s.nextProductId, name, price, stock⟩],
                  nextProductId := s.nextProductId + 1 },
         .ok ⟨s.nextProductId, name, price, stock⟩)) ∧
    ((∃ st2 p, create_product s name price stock = (st2, Except.ok p)) ↔
      0 ≤ price ∧ 0 ≤ stock) ∧
    create_product_default s name price = create_product s name price 0 := by
  refine ⟨?_, ?_, ?_, ?_, rfl⟩
  · intro h
    exact ⟨by simp [create_product, h], rfl⟩
  · intro h1 h2
    refine ⟨?_, rfl⟩
    unfold create_product
    rw [if_neg (not_lt.mpr h1), if_pos h2]
  · intro h1 h2
    unfold create_product
    rw [if_neg (not_lt.mpr h1), if_neg (not_lt.mpr h2)]
  · constructor
    · rintro ⟨st2, p, hp⟩
      rcases lt_or_ge price 0 with h | h
      · rw [(by simp [create_product, h] :
          create_product s name price stock = (s, .error .negativePrice))] at hp
        simp [Prod.mk.injEq] at hp
      · rcases lt_or_ge stock 0 with h2 | h2
        · rw [(by unfold create_product; rw [if_neg (not_lt.mpr h), if_pos h2] :
            create_product s name price stock = (s, .error .negativeStock))] at hp
          simp [Prod.mk.injEq] at hp
        · exact ⟨h, h2⟩
    · rintro ⟨h1, h2⟩
      exact ⟨_, _, by unfold create_product; rw [if_neg (not_lt.mpr h1), if_neg (not_lt.mpr h2)]⟩

/-- Witness for C4 at the spec's concrete inputs: price −0.01 and stock −1 are
rejected, price 0 with stock 0 is accepted and persisted. -/
theorem create_product_spec_witness :
    (create_product emptyStore "p" (-1/100) 0).2 = .error .negativePrice ∧
    (create_product emptyStore "p" 5 (-1)).2 = .error .negativeStock ∧
    (create_product emptyStore "p" 0 0).1.products = [⟨1, "p", 0, 0⟩] ∧
    (create_product emptyStore "p" 0 0).2 = .ok ⟨1, "p", 0, 0⟩ := by
  refine ⟨?_, ?_, ?_, ?_⟩
  · rw [((create_product_spec emptyStore "p" (-1/100) 0).1 (by norm_num)).1]
  · rw [((create_product_spec emptyStore "p" 5 (-1)).2.1 (by norm_num) (by norm_num)).1]
  · rw [(create_product_spec emptyStore "p" 0 0).2.2.1 le_rfl le_rfl]
    rfl
  · rw [(create_product_spec emptyStore "p" 0 0).2.2.1 le_rfl le_rfl]
    rfl

/-! ## Helper lemmas: order creation -/

lemma resolveProducts_nil (s : Store) : resolveProducts s [] = .ok [] := rfl

lemma resolveProducts_ok_cons (s : Store) (pid : Nat) (rest : List Nat)
    (ps : List Product) (h : resolveProducts s (pid :: rest) = .ok ps) :
    ∃ p ps2, resolve_product_by_id s pid = some p ∧
      resolveProducts s rest = .ok ps2 ∧ ps = p :: ps2 := by
  unfold resolveProducts at h
  cases hf : s.products.find? (fun p => p.id = pid) with
  | none => rw [hf] at h; exact absurd h (by simp)
  | some p =>
    rw [hf] at h
    cases hr : resolveProducts s rest with
    | error e => rw [hr] at h; exact absurd h (by simp [Except.map])
    | ok ps2 =>
      rw [hr] at h
      refine ⟨p, ps2, hf, rfl, ?_⟩
      simpa [Except.map] using h.symm

lemma resolveProducts_ok_length (s : Store) (pids : List Nat) (ps : List Product)
    (h : resolveProducts s pids = .ok ps) : ps.length = pids.length := by
  induction pids generalizing ps with
  | nil =>
    rw [resolveProducts_nil] at h
    cases h
    rfl
  | cons pid rest ih =>
    obtain ⟨p, ps2, _, hr, hps⟩ := resolveProducts_ok_cons s pid rest ps h
    subst hps
    simp [ih ps2 hr]

lemma resolveProducts_ok_map_id (s : Store) (pids : List Nat) (ps : List Product)
    (h : resolveProducts s pids = .ok ps) : ps.map Product.id = pids := by
  induction pids generalizing ps with
  | nil =>
    rw [resolveProducts_nil] at h
    cases h
    rfl
  | cons pid rest ih =>
    obtain ⟨p, ps2, hf, hr, hps⟩ := resolveProducts_ok_cons s pid rest ps h
    subst hps
    have hid : p.id = pid := by simpa using List.find?_some hf
    simp [hid, ih ps2 hr]

lemma resolveProducts_ok_not_none (s : Store) (pids : List Nat) (ps : List Product)
    (h : resolveProducts s pids = .ok ps) :
    ∀ pid ∈ pids, resolve_product_by_id s pid ≠ none := by
  induction pids generalizing ps with
  | nil => simp
  | cons pid rest ih =>
    obtain ⟨p, ps2, hf, hr, _⟩ := resolveProducts_ok_cons s pid rest ps h
    intro pid2 hmem
    rcases List.mem_cons.mp hmem with h2 | h2
    · subst h2
      simp [hf]
    · exact ih ps2 hr pid2 h2

lemma resolveProducts_error_mem (s : Store) (pids : List Nat) (e : MutError)
    (h : resolveProducts s pids = .error e) :
    ∃ pid ∈ pids, e = .productNotFound pid ∧ resolve_product_by_id s pid = none := by
  induction pids with
  | nil => rw [resolveProducts_nil] at h; exact absurd h (by simp)
  | cons pid rest ih =>
    unfold resolveProducts at h
    cases hf : s.products.find? (fun p => p.id = pid) with
    | none =>
      rw [hf] at h
      refine ⟨pid, List.mem_cons_self pid rest, ?_, hf⟩
      cases h
      rfl
    | some p =>
      rw [hf] at h
      cases hr : resolveProducts s rest with
      | error e2 =>
        rw [hr] at h
        have he : e2 = e := by simpa [Except.map] using h
        subst he
        obtain ⟨pid2, hmem, heq, hnone⟩ := ih hr
        exact ⟨pid2, List.mem_cons_of_mem pid hmem, heq, hnone⟩
      | ok ps =>
        rw [hr] at h
        exact absurd h (by simp [Except.map])

/-! ## Claims about order creation -/

/-- C2: `create_order` fails with a not-found error when the customer id does
not resolve or when any product id does not resolve, fails with the
empty-selection error when the resolved product list is empty, and otherwise
persists a new order associated with exactly the resolved products and returns
it; in every failure case the store — in particular the order table — is
unchanged. -/
theorem create_order_spec (s : Store) (cid : Nat) (pids : List Nat) :
    (resolve_customer_by_id s cid = none →
      create_order s cid pids = (s, .error (.customerNotFound cid)) ∧
      (MutError.customerNotFound cid).isNotFound = true) ∧
    (resolve_customer_by_id s cid ≠ none →
      (∃ pid ∈ pids, resolve_product_by_id s pid = none) →
      ∃ pid ∈ pids, create_order s cid pids = (s, .error (.productNotFound pid)) ∧
        resolve_product_by_id s pid = none ∧
        (MutError.productNotFound pid).isNotFound = true) ∧
    (resolve_customer_by_id s cid ≠ none → resolveProducts s pids = .ok [] →
      create_order s cid pids = (s, .error .emptySelection)) ∧
    (∀ ps, resolve_customer_by_id s cid ≠ none → resolveProducts s pids = .ok ps → ps ≠ [] →
      create_order s cid pids =
        ({ s with orders := s.orders ++ [⟨s.nextOrderId, cid, ps.map Product.id⟩],
                  nextOrderId := s.nextOrderId + 1 },
         .ok ⟨s.nextOrderId, cid, ps.map Product.id⟩)) ∧
    (∀ e, (create_order s cid pids).2 = .error e → (create_order s cid pids).1 = s) := by
  refine ⟨?_, ?_, ?_, ?_, ?_⟩
  · intro hc
    have hc2 : s.customers.find? (fun c => c.id = cid) = none := hc
    exact ⟨by unfold create_order; rw [hc2], rfl⟩
  · intro hc hmiss
    obtain ⟨c, hc2⟩ := Option.ne_none_iff_exists'.mp hc
    have hc3 : s.customers.find? (fun c => c.id = cid) = some c := hc2
    cases hr : resolveProducts s pids with
    | ok ps =>
      obtain ⟨pid, hmem, hnone⟩ := hmiss
      exact absurd hnone (by simpa using resolveProducts_ok_not_none s pids ps hr pid hmem)
    | error e =>
      obtain ⟨pid, hmem, heq, hnone⟩ := resolveProducts_error_mem s pids e hr
      subst heq
      refine ⟨pid, hmem, ?_, hnone, rfl⟩
      unfold create_order
      rw [hc3, hr]
  · intro hc hr
    obtain ⟨c, hc2⟩ := Option.ne_none_iff_exists'.mp hc
    have hc3 : s.customers.find? (fun c => c.id = cid) = some c := hc2
    unfold create_order
    rw [hc3, hr]
    rfl
  · intro ps hc hr hne
    obtain ⟨c, hc2⟩ := Option.ne_none_iff_exists'.mp hc
    have hc3 : s.customers.find? (fun c => c.id = cid) = some c := hc2
    have hps : ps.isEmpty = false := by simpa using hne
    unfold create_order
    rw [hc3, hr]
    simp only [hps]
    rfl
  · intro e he
    unfold create_order at he ⊢
    cases hc : s.customers.find? (fun c => c.id = cid) with
    | none =>
      simp only [hc]
    | some c =>
      simp only [hc] at he ⊢
      cases hr : resolveProducts s pids with
      | error e2 => simp only [hr]
      | ok ps =>
        simp only [hr] at he ⊢
        by_cases hps : ps.isEmpty = true
        · simp only [hps, if_true]
        · simp only [if_neg hps] at he
          exact absurd he (by simp)

/-- Witness for C2 at concrete inputs: a missing customer, a missing product,
and an empty product list. -/
theorem create_order_spec_witness :
    create_order demoStore 99 [1] = (demoStore, .error (.customerNotFound 99)) ∧
    (∃ pid ∈ [1, 42], create_order demoStore 1 [1, 42] =
      (demoStore, .error (.productNotFound pid)) ∧
      resolve_product_by_id demoStore pid = none ∧
      (MutError.productNotFound pid).isNotFound = true) ∧
    create_order demoStore 1 [] = (demoStore, .error .emptySelection) := by
  refine ⟨?_, ?_, ?_⟩
  · exact ((create_order_spec demoStore 99 [1]).1 (by decide)).1
  · exact (create_order_spec demoStore 1 [1, 42]).2.1 (by decide) ⟨42, by decide, by decide⟩
  · exact (create_order_spec demoStore 1 []).2.2.1 (by decide) rfl

/-- C10: the empty-selection failure of `create_order` is unreachable for a
non-empty product id list — each id either fails to resolve (not-found error)
or contributes one resolved product — and is reached exactly by an empty list
when the customer exists. -/
theorem create_order_empty_selection_iff (s : Store) (cid : Nat) (pids : List Nat) :
    (pids ≠ [] → (create_order s cid pids).2 ≠ .error .emptySelection) ∧
    (resolve_customer_by_id s cid ≠ none →
      (create_order s cid []).2 = .error .emptySelection) := by
  constructor
  · intro hne
    unfold create_order
    cases hc : s.customers.find? (fun c => c.id = cid) with
    | none => simp
    | some c =>
      cases hr : resolveProducts s pids with
      | error e =>
        obtain ⟨pid, _, heq, _⟩ := resolveProducts_error_mem s pids e hr
        subst heq
        simp
      | ok ps =>
        have hlen : ps.length = pids.length := resolveProducts_ok_length s pids ps hr
        have hps : ps.isEmpty = false := by
          cases ps with
          | nil => cases pids with
            | nil => exact absurd rfl hne
            | cons a l => simp at hlen
          | cons a l => rfl
        simp [hps]
  · intro hc
    obtain ⟨c, hc2⟩ := Option.ne_none_iff_exists'.mp hc
    have hc3 : s.customers.find? (fun c => c.id = cid) = some c := hc2
    unfold create_order
    rw [hc3, resolveProducts_nil]
    rfl

/-- Witness for C10 at concrete inputs: a non-empty list never produces the
empty-selection error, an empty list does. -/
theorem create_order_empty_selection_iff_witness :
    (create_order demoStore 1 [1]).2 ≠ .error .emptySelection ∧
    (create_order demoStore 1 []).2 = .error .emptySelection := by
  exact ⟨(create_order_empty_selection_iff demoStore 1 [1]).1 (by decide),
         (create_order_empty_selection_iff demoStore 1 []).2 (by decide)⟩

/-! ## Claims about the single-entity lookups -/

lemma find?_key_eq_some {α : Type} (key : α → Nat) (l : List α) (a : α) (id : Nat)
    (ha : a ∈ l) (hid : key a = id) (hnd : (l.map key).Nodup) :
    l.find? (fun x => key x = id) = some a := by
  induction l with
  | nil => cases ha
  | cons b rest ih =>
    rw [List.map_cons, List.nodup_cons] at hnd
    rcases List.mem_cons.mp ha with h | h
    · subst h
      apply List.find?_cons_of_pos
      simp [hid]
    · by_cases hb : key b = id
      · exfalso
        apply hnd.1
        rw [hb, ← hid]
        exact List.mem_map_of_mem key h
      · rw [List.find?_cons_of_neg _ (by simp [hb])]
        exact ih h hnd.2

/-- C7: each single-entity lookup (`customer_by_id`, `product_by_id`,
`order_by_id`) returns none when no row carries the id and the matching row
when one does (ids unique); the resolvers are total functions into `Option`,
so a missing id never raises. -/
theorem resolvers_lookup_spec (s : Store) (id : Nat) :
    ((∀ c ∈ s.customers, c.id ≠ id) → resolve_customer_by_id s id = none) ∧
    (∀ c ∈ s.customers, c.id = id → (s.customers.map Customer.id).Nodup →
      resolve_customer_by_id s id = some c) ∧
    ((∀ p ∈ s.products, p.id ≠ id) → resolve_product_by_id s id = none) ∧
    (∀ p ∈ s.products, p.id = id → (s.products.map Product.id).Nodup →
      resolve_product_by_id s id = some p) ∧
    ((∀ o ∈ s.orders, o.id ≠ id) → resolve_order_by_id s id = none) ∧
    (∀ o ∈ s.orders, o.id = id → (s.orders.map Order.id).Nodup →
      resolve_order_by_id s id = some o) := by
  refine ⟨?_, ?_, ?_, ?_, ?_, ?_⟩
  · intro h
    rw [resolve_customer_by_id, List.find?_eq_none]
    intro c hc
    simpa using h c hc
  · intro c hc hid hnd
    exact find?_key_eq_some Customer.id s.customers c id hc hid hnd
  · intro h
    rw [resolve_product_by_id, List.find?_eq_none]
    intro p hp
    simpa using h p hp
  · intro p hp hid hnd
    exact find?_key_eq_some Product.id s.products p id hp hid hnd
  · intro h
    rw [resolve_order_by_id, List.find?_eq_none]
    intro o ho
    simpa using h o ho
  · intro o ho hid hnd
    exact find?_key_eq_some Order.id s.orders o id ho hid hnd

/-- Witness for C7 at concrete inputs: a present and an absent customer id. -/
theorem resolvers_lookup_spec_witness :
    resolve_customer_by_id demoStore 99 = none ∧
    resolve_customer_by_id demoStore 1 =
      some ⟨1, "Alice", "alice@example.com", some "123-456-7890"⟩ := by
  constructor
  · exact (resolvers_lookup_spec demoStore 99).1 (by decide)
  · exact (resolvers_lookup_spec demoStore 1).2.1
      ⟨1, "Alice", "alice@example.com", some "123-456-7890"⟩
      (by decide) rfl (by decide)

/-! ## Claims about the derived order total -/

lemma find?_setPrice (s : Store) (pid : Nat) (q : ℚ) (i : Nat) :
    (setPrice s pid q).products.find? (fun p => p.id = i) =
      (s.products.find? (fun p => p.id = i)).map
        (fun p => if p.id = pid then { p with price := q } else p) := by
  show (s.products.map _).find? _ = _
  rw [List.find?_map]
  congr 1
  congr 1
  funext p
  by_cases h : p.id = pid <;> simp [h]

lemma total_amount_eq_map (s : Store) (l : List Nat)
    (hall : ∀ i ∈ l, resolve_product_by_id s i ≠ none) :
    (l.filterMap (fun pid =>
      (s.products.find? (fun p => p.id = pid)).map Product.price)).sum
      = (l.map (priceOf s)).sum := by
  induction l with
  | nil => rfl
  | cons a rest ih =>
    obtain ⟨p, hp⟩ :=
      Option.ne_none_iff_exists'.mp (hall a (List.mem_cons_self a rest))
    have hp2 : s.products.find? (fun x => x.id = a) = some p := hp
    have hpr : priceOf s a = p.price := by simp [priceOf, hp2]
    simp only [List.filterMap_cons, hp2, Option.map_some', List.map_cons, List.sum_cons, hpr]
    rw [ih (fun i hi => hall i (List.mem_cons_of_mem a hi))]

lemma sum_map_update (g : Nat → ℚ) (q : ℚ) (l : List Nat) (pid : Nat)
    (hnd : l.Nodup) (hmem : pid ∈ l) :
    (l.map (fun i => if i = pid then q else g i)).sum = (l.map g).sum - g pid + q := by
  induction l with
  | nil => cases hmem
  | cons a rest ih =>
    rw [List.nodup_cons] at hnd
    rcases List.mem_cons.mp hmem with h | h
    · subst h
      have hrest : rest.map (fun i => if i = pid then q else g i) = rest.map g := by
        apply List.map_congr_left
        intro i hi
        have hne : i ≠ pid := fun he => hnd.1 (he ▸ hi)
        simp [hne]
      have hq : (if pid = pid then q else g pid) = q := if_pos rfl
      rw [List.map_cons, List.sum_cons, hrest, hq, List.map_cons, List.sum_cons]
      ring
    · have ha : a ≠ pid := fun he => hnd.1 (he ▸ h)
      simp only [List.map_cons, List.sum_cons, if_neg ha, ih hnd.2 h]
      ring

/-- C3: `total_amount` is derived at read time: it equals the sum of the
current prices of the order's associated products, and after an external
change of one associated product's price a new read returns the old total
minus the old price plus the new one — nothing stored on the order is
consulted. -/
theorem total_amount_live (s : Store) (o : Order) (pid : Nat) (q : ℚ)
    (hall : ∀ i ∈ o.productIds, resolve_product_by_id s i ≠ none)
    (hmem : pid ∈ o.productIds) (hnd : o.productIds.Nodup) :
    resolve_total_amount s o = (o.productIds.map (priceOf s)).sum ∧
    resolve_total_amount (setPrice s pid q) o =
      (o.productIds.map (priceOf s)).sum - priceOf s pid + q := by
  have hall2 : ∀ i ∈ o.productIds, resolve_product_by_id (setPrice s pid q) i ≠ none := by
    intro i hi
    have hne := hall i hi
    show (setPrice s pid q).products.find? (fun p => p.id = i) ≠ none
    rw [find?_setPrice]
    cases hf : s.products.find? (fun p => p.id = i) with
    | none => exact absurd hf hne
    | some p => simp
  have hmap : o.productIds.map (priceOf (setPrice s pid q)) =
      o.productIds.map (fun i => if i = pid then q else priceOf s i) := by
    apply List.map_congr_left
    intro i hi
    obtain ⟨p, hp⟩ := Option.ne_none_iff_exists'.mp (hall i hi)
    have hp2 : s.products.find? (fun x => x.id = i) = some p := hp
    have hid : p.id = i := by simpa using List.find?_some hp2
    unfold priceOf
    rw [find?_setPrice, hp2]
    by_cases h : i = pid
    · subst h
      simp [hid]
    · simp [hid, h, priceOf, hp2]
  constructor
  · exact total_amount_eq_map s o.productIds hall
  · show (o.productIds.filterMap _).sum = _
    rw [total_amount_eq_map (setPrice s pid q) o.productIds hall2, hmap,
      sum_map_update (priceOf s) q o.productIds pid hnd hmem]

/-- Witness for C3 at a concrete order over the demo store: the total is the
sum of the two current prices, and reflects a later price change. -/
theorem total_amount_live_witness :
    resolve_total_amount demoStore ⟨1, 1, [1, 2]⟩ =
      ([1, 2].map (priceOf demoStore)).sum ∧
    resolve_total_amount (setPrice demoStore 1 10) ⟨1, 1, [1, 2]⟩ =
      ([1, 2].map (priceOf demoStore)).sum - priceOf demoStore 1 + 10 :=
  total_amount_live demoStore ⟨1, 1, [1, 2]⟩ 1 10 (by decide) (by decide) (by decide)

/-! ## Claims about the absence of updates and deletes -/

lemma preservesExisting_refl (s : Store) : preservesExisting s s :=
  ⟨⟨[], by simp⟩, ⟨[], by simp⟩, ⟨[], by simp⟩⟩

/-- C8: none of the four exposed mutations updates or deletes an existing
entity — after any call, each store table is the old table with zero or more
new rows appended, so previously existing records and their fields are
unchanged; the query resolvers take the store as a read-only argument and
return no store at all. -/
theorem mutations_never_update_or_delete (ve vp : String → Bool) (dbOk : Bool)
    (s : Store) (name email : String) (phone : Option String)
    (inputs : List CustomerInput) (pname : String) (price : ℚ) (stock : ℤ)
    (cid : Nat) (pids : List Nat) :
    preservesExisting s (create_customer ve vp s name email phone).1 ∧
    preservesExisting s (bulk_create_customers ve vp dbOk s inputs).1 ∧
    preservesExisting s (create_product s pname price stock).1 ∧
    preservesExisting s (create_order s cid pids).1 := by
  refine ⟨?_, ?_, ?_, ?_⟩
  · unfold create_customer
    by_cases h1 : ve email = false
    · rw [if_pos h1]
      exact preservesExisting_refl s
    · rw [if_neg h1]
      by_cases h2 : truthy phone = true ∧ vp (phone.getD "") = false
      · rw [if_pos h2]
        exact preservesExisting_refl s
      · rw [if_neg h2]
        exact ⟨⟨_, rfl⟩, ⟨[], by simp⟩, ⟨[], by simp⟩⟩
  · cases dbOk with
    | false => exact preservesExisting_refl s
    | true =>
      rw [bulk_create_ok_eq]
      exact ⟨⟨_, rfl⟩, ⟨[], by simp⟩, ⟨[], by simp⟩⟩
  · unfold create_product
    by_cases h1 : price < 0
    · rw [if_pos h1]
      exact preservesExisting_refl s
    · rw [if_neg h1]
      by_cases h2 : stock < 0
      · rw [if_pos h2]
        exact preservesExisting_refl s
      · rw [if_neg h2]
        exact ⟨⟨[], by simp⟩, ⟨_, rfl⟩, ⟨[], by simp⟩⟩
  · unfold create_order
    cases hc : s.customers.find? (fun c => c.id = cid) with
    | none => exact preservesExisting_refl s
    | some c =>
      cases hr : resolveProducts s pids with
      | error e => exact preservesExisting_refl s
      | ok ps =>
        cases ps with
        | nil => exact preservesExisting_refl s
        | cons p rest => exact ⟨⟨[], by simp⟩, ⟨[], by simp⟩, ⟨_, rfl⟩⟩

end CRM
